import Mathlib

/-!
Shallow embedding of the `diskdantic` package (disk-backed collections of
validated records) and verification of its specification claims.

The embedding follows `src/diskdantic`:
* `utils.py` (`slugify`),
* `handlers.py` (`JsonHandler`, `YamlHandler`, `MarkdownFrontmatterHandler`,
  `_split_frontmatter`),
* `collection.py` (`Collection`, `CollectionQuery`, `_prepare_path`,
  `_derive_path_for_model`, `_infer_handler`).

Python dictionaries are modelled as insertion-ordered association lists,
the filesystem as an association list from path to content, record objects
as heap identifiers (tracking is by object identity, `id(model)`), and the
external YAML/JSON codecs (out of scope per the spec) as function
parameters.
-/

namespace Diskdantic

/-! ## Ordered association lists (Python `dict` semantics) -/

/-- `d[k]`-style lookup: first (unique) binding for `k`. -/
def getAssoc {κ α : Type} [DecidableEq κ] (l : List (κ × α)) (k : κ) : Option α :=
  match l with
  | [] => none
  | (k1, v1) :: rest => if k1 = k then some v1 else getAssoc rest k

/-- `d[k] = v`: update in place if the key is present, else append
(Python dicts preserve insertion order). -/
def setAssoc {κ α : Type} [DecidableEq κ] (l : List (κ × α)) (k : κ) (v : α) :
    List (κ × α) :=
  match l with
  | [] => [(k, v)]
  | (k1, v1) :: rest =>
    if k1 = k then (k1, v) :: rest else (k1, v1) :: setAssoc rest k v

/-- `d.pop(k, None)`: remove the binding for `k` if present. -/
def eraseAssoc {κ α : Type} [DecidableEq κ] (l : List (κ × α)) (k : κ) :
    List (κ × α) :=
  match l with
  | [] => []
  | (k1, v1) :: rest =>
    if k1 = k then rest else (k1, v1) :: eraseAssoc rest k

/-- `k in d`. -/
def hasKey {κ α : Type} [DecidableEq κ] (l : List (κ × α)) (k : κ) : Bool :=
  (getAssoc l k).isSome

/-! ## Generic Python values

`PyVal` is the scalar/nested-scalar domain of payload fields (§3 of the
spec: "Payload: an ordered mapping from field name (string) to value").
`pyTruthy` is Python truthiness, needed because the handlers use
`yaml.safe_load(fh) or {}`. -/

inductive PyVal : Type where
  | vnone : PyVal
  | vbool (b : Bool) : PyVal
  | vint (n : Int) : PyVal
  | vstr (s : String) : PyVal
  | vlist (l : List PyVal) : PyVal
  | vdict (d : List (String × PyVal)) : PyVal

/-- Python truthiness of a `PyVal`. -/
def pyTruthy : PyVal → Bool
  | .vnone => false
  | .vbool b => b
  | .vint n => n != 0
  | .vstr s => s ≠ ""
  | .vlist l => !l.isEmpty
  | .vdict d => !d.isEmpty

/-- A payload: ordered field-name-to-value mapping (`dict[str, Any]`). -/
abbrev Payload := List (String × PyVal)

/-! ## `utils.slugify`

```python
SLUG_PATTERN = re.compile(r"[^a-z0-9]+")

def slugify(value):
    text = str(value).strip().lower()
    text = SLUG_PATTERN.sub("-", text)
    text = text.strip("-")
    return text or "item"
```
-/

/-- Python `str.strip()` whitespace set (ASCII whitespace). -/
def pyIsSpace (c : Char) : Bool :=
  c = ' ' || c = '\t' || c = '\n' || c = '\r' || c = '\x0b' || c = '\x0c'

/-- Strip characters satisfying `p` from both ends of a character list
(Python `str.strip`). -/
def pyStripList (p : Char → Bool) (s : List Char) : List Char :=
  ((s.dropWhile p).reverse.dropWhile p).reverse

/-- Python `str.startswith` (prefix test on the character sequence). -/
def pyStartsWith (s pre : String) : Bool :=
  pre.data.isPrefixOf s.data

/-- Python `s[n:]`. -/
def pyDrop (s : String) (n : Nat) : String :=
  String.mk (s.data.drop n)

/-- Python `str.lower` (characterwise). -/
def pyLower (s : String) : String :=
  String.mk (s.data.map Char.toLower)

/-- The character class `[a-z0-9]` of `SLUG_PATTERN`. -/
def isSlugChar (c : Char) : Bool :=
  ('a' ≤ c && c ≤ 'z') || ('0' ≤ c && c ≤ '9')

/-- `SLUG_PATTERN.sub("-", text)`: replace each maximal run of characters
outside `[a-z0-9]` by a single hyphen. `inRun` records whether the
previous character was part of such a run. -/
def subSlugRuns (inRun : Bool) : List Char → List Char
  | [] => []
  | c :: cs =>
    if isSlugChar c then c :: subSlugRuns false cs
    else if inRun then subSlugRuns true cs
    else '-' :: subSlugRuns true cs

/-- `utils.slugify` on a string value (`str(value)` is the identity there). -/
def slugify (value : String) : String :=
  let text := (pyStripList pyIsSpace value.data).map Char.toLower
  let text := subSlugRuns false text
  let text := pyStripList (· = '-') text
  if text.isEmpty then "item" else String.mk text

/-! ## Path derivation (`Collection._derive_path_for_model`, `_prepare_path`)

```python
def _derive_path_for_model(self, model):
    data = model.model_dump()
    for key in ("slug", "id", "name", "title"):
        value = data.get(key)
        if isinstance(value, str) and value.strip():
            slug = slugify(value)
            break
    else:
        slug = uuid4().hex
    filename = slug + self._handler.extension
    return self.root / filename

def _prepare_path(self, model, explicit_path=None):
    if explicit_path is not None: ...
    candidate = self._derive_path_for_model(model)
    counter = 1
    while candidate.exists():
        candidate = candidate.with_stem(f"{candidate.stem}-{counter}")
        counter += 1
    return candidate
```

Paths are modelled as filenames relative to the collection root.  The
nondeterministic `uuid4().hex` is an explicit parameter `uuid`. -/

/-- `isinstance(value, str) and value.strip()`: a present string field
containing at least one non-whitespace character. -/
def usableString : Option PyVal → Option String
  | some (.vstr s) => if pyStripList pyIsSpace s.data ≠ [] then some s else none
  | _ => none

/-- The `for key in ("slug", "id", "name", "title")` search with its
`else` (uuid) fallback, returning the filename stem. -/
def deriveStem (uuid : String) (data : Payload) : String :=
  match usableString (getAssoc data "slug") with
  | some s => slugify s
  | none =>
    match usableString (getAssoc data "id") with
    | some s => slugify s
    | none =>
      match usableString (getAssoc data "name") with
      | some s => slugify s
      | none =>
        match usableString (getAssoc data "title") with
        | some s => slugify s
        | none => uuid

/-- The `while candidate.exists()` collision loop of `_prepare_path`.
`candidate.with_stem(f"{candidate.stem}-{counter}")` keeps the suffix and
replaces the stem, so the loop is carried on (stem, extension).  `fuel`
bounds the iteration count (the Python loop terminates because the
filesystem is finite and the candidate stems are pairwise distinct). -/
def prepLoop (ex : String → Bool) (ext : String) : Nat → String → Nat → String
  | 0, stem, _ => stem ++ ext
  | fuel + 1, stem, counter =>
    if ex (stem ++ ext) then prepLoop ex ext fuel (stem ++ "-" ++ toString counter) (counter + 1)
    else stem ++ ext

/-- `_prepare_path` for the no-explicit-path case: derive a filename from
the record's dumped payload, then bump the stem until the path is free.
Note that the identity tracker is *not* consulted here (this is the
source of the duplicate-`add` bug). -/
def preparePath (ex : String → Bool) (ext : String) (uuid : String)
    (data : Payload) (fuel : Nat) : String :=
  prepLoop ex ext fuel (deriveStem uuid data) 1

/-- The stems actually produced by the collision loop: each bump appends
`-counter` to the *current* stem, so the suffixes accumulate
(`s`, `s-1`, `s-1-2`, `s-1-2-3`, ...). -/
def candStem (s : String) : Nat → String
  | 0 => s
  | k + 1 => candStem s k ++ "-" ++ toString (k + 1)

/-! ## Format handlers (`handlers.py`)

The filesystem is an association list from path to file content
(`ByteFs`).  The low-level YAML/JSON codecs are external collaborators
(out of scope per the spec §1), so they are function parameters:
`parse : String → Except Unit PyVal` stands for `yaml.safe_load` /
`json.load`, and `ser : Payload → Except Unit String` for
`yaml.safe_dump` / `orjson.dumps`. -/

abbrev ByteFs := List (String × String)

inductive ReadErr : Type where
  | parseError : ReadErr
  | valueError : ReadErr
  | indexError : ReadErr
deriving DecidableEq

/-- Python `str.strip()`. -/
def pyStrip (s : String) : String := String.mk (pyStripList pyIsSpace s.data)

/-- Python `str.rstrip()`. -/
def pyRStrip (s : String) : String :=
  String.mk (s.data.reverse.dropWhile pyIsSpace).reverse

/-- Python `str(value)`.  Exact for the scalar cases; container cases are
rendered structurally (no claim exercises them). -/
def pyToStr : PyVal → String
  | .vstr s => s
  | .vint n => toString n
  | .vbool b => if b then "True" else "False"
  | .vnone => "None"
  | .vlist l => "[" ++ String.intercalate ", " (l.attach.map fun x => pyToStr x.1) ++ "]"
  | .vdict d =>
    "\x7b" ++
      String.intercalate ", " (d.attach.map fun kv => kv.1.1 ++ ": " ++ pyToStr kv.1.2) ++
      "\x7d"
decreasing_by
  · simp only [PyVal.vlist.sizeOf_spec]
    have := List.sizeOf_lt_of_mem x.2
    omega
  · simp only [PyVal.vdict.sizeOf_spec]
    have h1 := List.sizeOf_lt_of_mem kv.2
    have h2 : sizeOf kv.1.2 < sizeOf kv.1 := by
      obtain ⟨a, b⟩ := kv.1
      simp
    omega

/-- `s.split(sep, 1)` when `sep` occurs in `s`: the text before the first
occurrence and the text after it (separator consumed); `none` when `sep`
does not occur (Python then returns the one-element list `[s]`). -/
def splitOnceList (sep : List Char) : List Char → Option (List Char × List Char)
  | [] => none
  | c :: cs =>
    if sep.isPrefixOf (c :: cs) then some ([], (c :: cs).drop sep.length)
    else
      match splitOnceList sep cs with
      | some (pre, post) => some (c :: pre, post)
      | none => none

def splitOnce (s sep : String) : Option (String × String) :=
  match splitOnceList sep.data s.data with
  | some (pre, post) => some (String.mk pre, String.mk post)
  | none => none

/-- `JsonHandler.read`: `json.load(fh)` on the file content — note there
is no check that the parsed value is a mapping; whatever JSON parses to
is returned. -/
def jsonRead (parse : String → Except Unit PyVal) (content : String) :
    Except ReadErr PyVal :=
  match parse content with
  | .error _ => .error .parseError
  | .ok v => .ok v

/-- `YamlHandler.read`: `payload = yaml.safe_load(fh) or {}` followed by
the mapping check (`raise ValueError` for a non-dict payload). -/
def yamlRead (parse : String → Except Unit PyVal) (content : String) :
    Except ReadErr Payload :=
  match parse content with
  | .error _ => .error .parseError
  | .ok v =>
    let payload := if pyTruthy v then v else .vdict []
    match payload with
    | .vdict d => .ok d
    | _ => .error .valueError

/-- `handlers._split_frontmatter`:

```python
if not text.startswith("---"):
    return {}, text
parts = text.split("\n", 1)[1]        # IndexError when text has no newline
if "\n---" not in parts:
    return {}, text
frontmatter_raw, body = parts.split("\n---", 1)
if body.startswith("\n"):
    body = body[1:]
meta = yaml.safe_load(frontmatter_raw) or {}
if not isinstance(meta, dict):
    raise ValueError("Frontmatter must parse to a mapping")
return meta, body
```
-/
def splitFrontmatter (parse : String → Except Unit PyVal) (text : String) :
    Except ReadErr (Payload × String) :=
  if ¬ pyStartsWith text "---" then .ok ([], text)
  else
    match splitOnce text "\n" with
    | none => .error .indexError
    | some (_, parts) =>
      match splitOnce parts "\n---" with
      | none => .ok ([], text)
      | some (fmRaw, rest) =>
        let body := if pyStartsWith rest "\n" then pyDrop rest 1 else rest
        match parse fmRaw with
        | .error _ => .error .parseError
        | .ok v =>
          let meta := if pyTruthy v then v else .vdict []
          match meta with
          | .vdict d => .ok (d, body)
          | _ => .error .valueError

/-- `MarkdownFrontmatterHandler.read`: split the frontmatter, then store
the body under `body_field or "content"`. -/
def markdownRead (parse : String → Except Unit PyVal) (bodyField : Option String)
    (content : String) : Except ReadErr Payload :=
  match splitFrontmatter parse content with
  | .error e => .error e
  | .ok (meta, body) =>
    let field := bodyField.getD "content"
    .ok (setAssoc meta field (.vstr body))

/-- `JsonHandler.write`: `path.open("wb")` truncates/creates the file
*before* `orjson.dumps(data)` runs (the file handle is opened first, then
the argument of `fh.write` is evaluated); on a serialization failure the
destination is left empty.  The error case carries the resulting
filesystem. -/
def jsonWriteFs (ser : Payload → Except Unit String) (fs : ByteFs)
    (path : String) (data : Payload) : Except ByteFs ByteFs :=
  let fs1 := setAssoc fs path ""
  match ser data with
  | .error _ => .error fs1
  | .ok s => .ok (setAssoc fs1 path (s ++ "\n"))

/-- `YamlHandler.write`: `path.open("w")` truncates/creates, then
`yaml.safe_dump(dict(data), fh, ...)` streams into the handle; a failure
mid-serialization leaves whatever prefix was already streamed (carried by
the serializer's error value). -/
def yamlWriteFs (ser : Payload → Except String String) (fs : ByteFs)
    (path : String) (data : Payload) : Except ByteFs ByteFs :=
  let fs1 := setAssoc fs path ""
  match ser data with
  | .error prefixWritten => .error (setAssoc fs1 path prefixWritten)
  | .ok s => .ok (setAssoc fs1 path s)

/-- `MarkdownFrontmatterHandler.write`: the body field is popped from the
payload, the rest is serialized to a *string* in memory
(`yaml.safe_dump(payload, ...)`), the document is rendered, and only then
is the file written — a serialization failure leaves the filesystem
untouched. -/
def markdownWriteFs (ser : Payload → Except Unit String) (bodyField : Option String)
    (fs : ByteFs) (path : String) (data : Payload) : Except ByteFs ByteFs :=
  let field := bodyField.getD "content"
  let body := (getAssoc data field).getD (.vstr "")
  let payload := eraseAssoc data field
  match ser payload with
  | .error _ => .error fs
  | .ok fmRaw =>
    let frontmatter := pyStrip fmRaw
    let rendered :=
      pyRStrip ("---\n" ++ frontmatter ++ "\n---\n\n" ++ pyToStr body) ++ "\n"
    .ok (setAssoc fs path rendered)

/-! ## The `Collection` state machine (`collection.py`)

Record objects are modelled by identity: a record is a heap identifier
(`Nat`, standing for Python's `id(model)`), with its dumped payload held
in `records`.  `live` is the set of identifiers the caller still holds a
strong reference to (the per-path cache also holds strong references, so
a cached record is always reachable).  `refs` is `_path_refs`, the
identity tracker (weak references; an entry whose record is collected is
purged by the `weakref` callback).  The filesystem and handler are
abstracted by `CollEnv`; `write`'s error value carries the filesystem as
the failed write left it. -/

structure CollEnv (F : Type) where
  write : F → String → Payload → Except F F
  read : F → String → Except Unit Payload
  pathExists : F → String → Bool
  remove : F → String → F
  ext : String

structure CollState (F : Type) where
  fs : F
  cache : List (String × Nat)
  refs : List (Nat × String)
  records : List (Nat × Payload)
  live : List Nat
  nextId : Nat

inductive CollErr : Type where
  | missingPath : CollErr
  | writeError : CollErr
  | readError : CollErr
deriving DecidableEq

/-- `model.model_dump()` for the record with identity `r`. -/
def modelDump {F : Type} (st : CollState F) (r : Nat) : Payload :=
  (getAssoc st.records r).getD []

/-- `Collection._lookup_path` for a record the caller holds (the argument
of a public operation is reachable, so the dead-referent purge branch of
the Python code cannot trigger). -/
def lookupPath {F : Type} (st : CollState F) (r : Nat) : Option String :=
  getAssoc st.refs r

/-- `Collection.add(model, path=None)`.  `_prepare_path` derives the
target from the dumped payload and the existing files only — the identity
tracker is *not* consulted.  On success the tracker and cache are updated
(`_register_model`; `_model_cache[target] = model`).  On a write failure
the exception propagates: the error value is the state with the
filesystem as the handler left it and all in-memory maps untouched. -/
def collAdd {F : Type} (E : CollEnv F) (uuid : String) (st : CollState F)
    (r : Nat) (explicit : Option String) (fuel : Nat) :
    Except (CollErr × CollState F) (String × CollState F) :=
  let data := modelDump st r
  let target :=
    match explicit with
    | some p => p
    | none => preparePath (E.pathExists st.fs) E.ext uuid data fuel
  match E.write st.fs target data with
  | .error fs1 => .error (.writeError, { st with fs := fs1 })
  | .ok fs1 =>
    .ok (target,
      { st with
        fs := fs1
        refs := setAssoc st.refs r target
        cache := setAssoc st.cache target r })

/-- `Collection.update(model)`: requires a tracked path
(`MissingPathError` otherwise); re-writes there and refreshes the cache
entry. -/
def collUpdate {F : Type} (E : CollEnv F) (st : CollState F) (r : Nat) :
    Except (CollErr × CollState F) (String × CollState F) :=
  match lookupPath st r with
  | none => .error (.missingPath, st)
  | some path =>
    let data := modelDump st r
    match E.write st.fs path data with
    | .error fs1 => .error (.writeError, { st with fs := fs1 })
    | .ok fs1 =>
      .ok (path, { st with fs := fs1, cache := setAssoc st.cache path r })

/-- `Collection.delete(model)` for a record argument: resolve via the
tracker (`MissingPathError` if untracked), `_forget_model`, pop the cache
entry for the resolved path, unlink the file if present. -/
def collDeleteRecord {F : Type} (E : CollEnv F) (st : CollState F) (r : Nat) :
    Except (CollErr × CollState F) (CollState F) :=
  match lookupPath st r with
  | none => .error (.missingPath, st)
  | some path =>
    let st1 := { st with refs := eraseAssoc st.refs r }
    let st2 := { st1 with cache := eraseAssoc st1.cache path }
    .ok (if E.pathExists st2.fs path
      then { st2 with fs := E.remove st2.fs path } else st2)

/-- `Collection.delete(path)` for a path argument: pop the cache entry
and unlink the file if present; the tracker is *not* touched. -/
def collDeletePath {F : Type} (E : CollEnv F) (st : CollState F) (path : String) :
    CollState F :=
  let st1 := { st with cache := eraseAssoc st.cache path }
  if E.pathExists st1.fs path then { st1 with fs := E.remove st1.fs path } else st1

/-- `Collection._load_model(path, force)`: absent `force`, a cached
record is returned without touching disk; otherwise the file is read,
validated into a *fresh* record object, registered and cached. -/
def collLoadModel {F : Type} (E : CollEnv F) (st : CollState F) (path : String)
    (force : Bool) : Except (CollErr × CollState F) (Nat × CollState F) :=
  if !force && hasKey st.cache path then
    .ok ((getAssoc st.cache path).getD 0, st)
  else
    match E.read st.fs path with
    | .error _ => .error (.readError, st)
    | .ok data =>
      let i := st.nextId
      .ok (i,
        { st with
          records := setAssoc st.records i data
          live := i :: st.live
          refs := setAssoc st.refs i path
          cache := setAssoc st.cache path i
          nextId := i + 1 })

/-- `Collection.refresh(model)`: requires a tracked path, then re-reads
from disk unconditionally; the old record object stays tracked. -/
def collRefresh {F : Type} (E : CollEnv F) (st : CollState F) (r : Nat) :
    Except (CollErr × CollState F) (Nat × CollState F) :=
  match lookupPath st r with
  | none => .error (.missingPath, st)
  | some path => collLoadModel E st path true

/-- A record is reachable while the caller holds it or the cache does
(the cache holds strong references). -/
def reachableB {F : Type} (st : CollState F) (i : Nat) : Bool :=
  st.live.contains i || st.cache.any fun e => e.2 == i

/-- The spec §3 invariant: every cached `(path, record)` pair has a
tracker entry mapping that record's identity to that path, and every
tracker entry whose record is still reachable has the cache mapping its
path to that record. -/
def consistentB {F : Type} (st : CollState F) : Bool :=
  (st.cache.all fun e => !reachableB st e.2 || getAssoc st.refs e.2 == some e.1) &&
  (st.refs.all fun e => !reachableB st e.1 || getAssoc st.cache e.2 == some e.1)

/-- Concrete instantiation of `CollEnv` used for closed runs of the
state machine: the filesystem stores, per path, the payload the handler
serialized to it (a well-behaved codec round-trips, and none of the
identity/cache bookkeeping depends on the byte encoding). -/
def storeEnv (ext : String) : CollEnv (List (String × Payload)) where
  write := fun fs p d => .ok (setAssoc fs p d)
  read := fun fs p =>
    match getAssoc fs p with
    | some d => .ok d
    | none => .error ()
  pathExists := fun fs p => hasKey fs p
  remove := fun fs p => eraseAssoc fs p
  ext := ext

/-! ## The query pipeline (`CollectionQuery`)

A pipeline value holds the accumulated predicates, at most one sort
instruction and the post-materialization operations
(`lambda items: items[:n]` / `lambda items: items[-n:] if n else []`,
modelled by `PostOp` with the captured `n`).

Python objects alias, so to state the builder frame property (C6) the
pipeline objects live in an explicit heap `QStore` addressed by object
references; `_clone` allocates a fresh object with copied lists and each
builder then mutates only the clone. -/

structure SortInstruction where
  field : String
  descending : Bool
deriving DecidableEq

inductive PostOp : Type where
  | headOp (n : Nat) : PostOp
  | tailOp (n : Nat) : PostOp
deriving DecidableEq

/-- `items[:n]` and `items[-n:] if n else []` for the checked `n ≥ 0`. -/
def evalPostOp {T : Type} : PostOp → List T → List T
  | .headOp n, items => items.take n
  | .tailOp n, items => if n = 0 then [] else items.drop (items.length - n)

structure QueryData (T : Type) where
  predicates : List (T → Bool)
  sort : Option SortInstruction
  postOps : List PostOp

def emptyQuery {T : Type} : QueryData T :=
  { predicates := [], sort := none, postOps := [] }

/-- Stable insertion sort: the embedding of Python's (stable)
`list.sort` with boolean strict comparison `lt`.  A new element is
placed after every element strictly smaller and before the first
element not smaller, so elements comparing equal keep their original
relative order. -/
def sInsert {α : Type} (lt : α → α → Bool) (x : α) : List α → List α
  | [] => [x]
  | y :: ys => if lt y x then y :: sInsert lt x ys else x :: y :: ys

def sSort {α : Type} (lt : α → α → Bool) : List α → List α
  | [] => []
  | x :: xs => sInsert lt x (sSort lt xs)

/-- `items.sort(key=..., reverse=...)`: stable, comparisons reversed when
`reverse` is set. -/
def pyListSort {T K : Type} [LinearOrder K] (key : T → K) (descending : Bool)
    (items : List T) : List T :=
  sSort (fun a b => if descending then decide (key b < key a) else decide (key a < key b))
    items

/-- `CollectionQuery.to_list`: successive filters in registration order,
then the optional sort (`getattr(item, field)` is the attribute map
`attr`), then the post operations in registration order. -/
def toListQ {T K : Type} [LinearOrder K] (attr : T → String → K)
    (allItems : List T) (q : QueryData T) : List T :=
  let items := q.predicates.foldl (fun acc p => acc.filter p) allItems
  let items :=
    match q.sort with
    | none => items
    | some s => pyListSort (fun t => attr t s.field) s.descending items
  q.postOps.foldl (fun acc op => evalPostOp op acc) items

/-! ### The query-object heap -/

abbrev QStore (T : Type) := List (QueryData T)

def qGet {T : Type} (store : QStore T) (i : Nat) : Option (QueryData T) :=
  store[i]?

def qAlloc {T : Type} (store : QStore T) (d : QueryData T) : QStore T × Nat :=
  (store ++ [d], store.length)

def qSet {T : Type} (store : QStore T) (i : Nat) (d : QueryData T) : QStore T :=
  store.set i d

/-- `CollectionQuery._clone`: a fresh object whose predicate and post-op
lists are copies (`list(...)`) of the receiver's and whose sort
instruction is shared (immutable). -/
def qClone {T : Type} (store : QStore T) (q : Nat) : QStore T × Nat :=
  qAlloc store ((qGet store q).getD emptyQuery)

/-- `CollectionQuery.filter`: clone, then append the predicate to the
clone's list. -/
def qFilter {T : Type} (store : QStore T) (q : Nat) (p : T → Bool) :
    QStore T × Nat :=
  let (s1, nq) := qClone store q
  let d := (qGet s1 nq).getD emptyQuery
  (qSet s1 nq { d with predicates := d.predicates ++ [p] }, nq)

/-- `CollectionQuery.order_by`: a leading `-` means descending; clone,
then replace the clone's sort instruction. -/
def qOrderBy {T : Type} (store : QStore T) (q : Nat) (field : String) :
    QStore T × Nat :=
  let descending := pyStartsWith field "-"
  let normalized := if descending then pyDrop field 1 else field
  let (s1, nq) := qClone store q
  let d := (qGet s1 nq).getD emptyQuery
  (qSet s1 nq { d with sort := some ⟨normalized, descending⟩ }, nq)

/-- `CollectionQuery.head`: `ValueError` for negative `n`, else clone and
append the truncation op. -/
def qHead {T : Type} (store : QStore T) (q : Nat) (n : Int) :
    Except String (QStore T × Nat) :=
  if n < 0 then .error "head expects a non-negative integer"
  else
    let (s1, nq) := qClone store q
    let d := (qGet s1 nq).getD emptyQuery
    .ok (qSet s1 nq { d with postOps := d.postOps ++ [.headOp n.toNat] }, nq)

/-- `CollectionQuery.tail`: `ValueError` for negative `n`, else clone and
append the keep-last op. -/
def qTail {T : Type} (store : QStore T) (q : Nat) (n : Int) :
    Except String (QStore T × Nat) :=
  if n < 0 then .error "tail expects a non-negative integer"
  else
    let (s1, nq) := qClone store q
    let d := (qGet s1 nq).getD emptyQuery
    .ok (qSet s1 nq { d with postOps := d.postOps ++ [.tailOp n.toNat] }, nq)

/-! ### Specification-side materialization (for claim C3)

The spec describes materialization as: keep exactly the records on which
every predicate holds (conjunction), then stable-sort by the named
field's value — records with equal sort keys preserve their pre-sort
relative order — then apply the post-sort transforms in registration
order.  The stable sort is specified independently of the code's
algorithm: index every record by its pre-sort position, sort by the pair
(key, position), and forget positions. -/

/-- Strict ordering on position-indexed records: by key (ascending, or
descending when requested), ties broken by pre-sort position. -/
def lexLt {T K : Type} [LinearOrder K] (key : T → K) (descending : Bool)
    (a b : Nat × T) : Bool :=
  if descending then
    decide (key b.2 < key a.2) || (decide (key a.2 = key b.2) && decide (a.1 < b.1))
  else
    decide (key a.2 < key b.2) || (decide (key a.2 = key b.2) && decide (a.1 < b.1))

/-- Spec-side stable sort by a key. -/
def stableSortSpec {T K : Type} [LinearOrder K] (key : T → K) (descending : Bool)
    (items : List T) : List T :=
  (sSort (lexLt key descending) items.enum).map Prod.snd

/-- Spec-side materialization: conjunctive filter, stable sort, post-sort
transforms in registration order. -/
def specMaterialize {T K : Type} [LinearOrder K] (attr : T → String → K)
    (allItems : List T) (q : QueryData T) : List T :=
  let items := allItems.filter fun t => q.predicates.all fun p => p t
  let items :=
    match q.sort with
    | none => items
    | some s => stableSortSpec (fun t => attr t s.field) s.descending items
  q.postOps.foldl (fun acc op => evalPostOp op acc) items

/-! ## Handler inference (`Collection._infer_handler`)

```python
def _infer_handler(self, *, strict=False):
    seen_handlers = set()
    for path in iterator:
        if not path.is_file(): continue
        suffix = path.suffix.lower()
        handler_cls = EXTENSION_REGISTRY.get(suffix)
        if handler_cls is None:
            raise UnknownFormatError(f"... file '{path.name}' ...")
        seen_handlers.add(handler_cls)
        if len(seen_handlers) > 1:
            raise InconsistentFormatError(...)
    if not seen_handlers:
        if strict: raise UnknownFormatError(...)
        return MarkdownFrontmatterHandler()
    handler_cls = next(iter(seen_handlers))
    return handler_cls()
```

A directory is the list of its files in enumeration order; each file has
a name and a suffix.  `seen_handlers` (a set that never exceeds two
elements before the loop aborts) is a duplicate-free list.  The
`UnknownFormatError` payload records the offending file's name (`none`
for the empty-directory case). -/

inductive HandlerKind : Type where
  | markdown : HandlerKind
  | json : HandlerKind
  | yaml : HandlerKind
deriving DecidableEq

/-- `EXTENSION_REGISTRY`. -/
def extensionRegistry : List (String × HandlerKind) :=
  [(".md", .markdown), (".markdown", .markdown), (".json", .json),
   (".yaml", .yaml), (".yml", .yaml)]

structure FileEntry where
  name : String
  suffix : String
deriving DecidableEq

inductive InferErr : Type where
  | unknownFormat (offending : Option String) : InferErr
  | inconsistentFormat : InferErr
deriving DecidableEq

/-- `EXTENSION_REGISTRY.get(path.suffix.lower())`. -/
def kindOf (f : FileEntry) : Option HandlerKind :=
  getAssoc extensionRegistry (pyLower f.suffix)

/-- The scan loop of `_infer_handler`, returning the final
`seen_handlers` when no error is raised. -/
def inferLoop (seen : List HandlerKind) :
    List FileEntry → Except InferErr (List HandlerKind)
  | [] => .ok seen
  | f :: rest =>
    match kindOf f with
    | none => .error (.unknownFormat (some f.name))
    | some k =>
      let seen1 := if seen.contains k then seen else seen ++ [k]
      if seen1.length > 1 then .error .inconsistentFormat
      else inferLoop seen1 rest

/-- `Collection._infer_handler`. -/
def inferHandler (strict : Bool) (files : List FileEntry) :
    Except InferErr HandlerKind :=
  match inferLoop [] files with
  | .error e => .error e
  | .ok [] => if strict then .error (.unknownFormat none) else .ok .markdown
  | .ok (k :: _) => .ok k

/-! ## Concrete fixtures for closed runs of the state machine -/

abbrev StoreFs := List (String × Payload)

/-- The payload of the `BlogPost(title="Test Post", ...)` record of
`test_add_prevents_duplicates` (only the naming-relevant field). -/
def testPostPayload : Payload := [("title", .vstr "Test Post")]

/-- Empty collection; the caller holds record `0` (the test's `post`). -/
def stStart : CollState StoreFs :=
  { fs := [], cache := [], refs := [], records := [(0, testPostPayload)],
    live := [0], nextId := 1 }

/-- The state after `posts.add(post)`. -/
def stAfterAdd : CollState StoreFs :=
  { fs := [("test-post.yaml", testPostPayload)],
    cache := [("test-post.yaml", 0)],
    refs := [(0, "test-post.yaml")],
    records := [(0, testPostPayload)], live := [0], nextId := 1 }

/-- The state after a second `posts.add(post)` with the same object. -/
def stAfterSecondAdd : CollState StoreFs :=
  { fs := [("test-post.yaml", testPostPayload), ("test-post-1.yaml", testPostPayload)],
    cache := [("test-post.yaml", 0), ("test-post-1.yaml", 0)],
    refs := [(0, "test-post-1.yaml")],
    records := [(0, testPostPayload)], live := [0], nextId := 1 }

/-- The state after `posts.refresh(post)` run from `stAfterAdd`: a fresh
record `1` is validated, registered and cached, while record `0` stays
live and tracked. -/
def stAfterRefresh : CollState StoreFs :=
  { fs := [("test-post.yaml", testPostPayload)],
    cache := [("test-post.yaml", 1)],
    refs := [(0, "test-post.yaml"), (1, "test-post.yaml")],
    records := [(0, testPostPayload), (1, testPostPayload)],
    live := [1, 0], nextId := 2 }

/-- An environment whose handler write always raises, leaving the
filesystem untouched (used to exercise the failure paths of
`add`/`update`). -/
def failEnv : CollEnv ByteFs :=
  { write := fun fs _ _ => .error fs
    read := fun _ _ => .error ()
    pathExists := fun _ _ => false
    remove := fun fs _ => fs
    ext := ".json" }

/-! ## Lemma library (proofs about the embedded definitions) -/

theorem getAssoc_setAssoc_self {κ α : Type} [DecidableEq κ]
    (l : List (κ × α)) (k : κ) (v : α) : getAssoc (setAssoc l k v) k = some v := by
  induction l with
  | nil => simp [setAssoc, getAssoc]
  | cons hd tl ih =>
    obtain ⟨k1, v1⟩ := hd
    by_cases h : k1 = k
    · simp [setAssoc, getAssoc, h]
    · simp [setAssoc, getAssoc, h, ih]

theorem getAssoc_setAssoc_ne {κ α : Type} [DecidableEq κ]
    (l : List (κ × α)) (k k2 : κ) (v : α) (hne : k ≠ k2) :
    getAssoc (setAssoc l k v) k2 = getAssoc l k2 := by
  induction l with
  | nil => simp [setAssoc, getAssoc, hne]
  | cons hd tl ih =>
    obtain ⟨k1, v1⟩ := hd
    by_cases h : k1 = k
    · subst h
      simp [setAssoc, getAssoc, hne]
    · simp [setAssoc, getAssoc, h, ih]

theorem prepLoop_first_free (ex : String → Bool) (ext s : String) :
    ∀ (fuel j m : Nat), j ≤ m → m < j + fuel →
    (∀ i, j ≤ i → i < m → ex (candStem s i ++ ext) = true) →
    ex (candStem s m ++ ext) = false →
    prepLoop ex ext fuel (candStem s j) (j + 1) = candStem s m ++ ext := by
  intro fuel
  induction fuel with
  | zero => intro j m hjm hm _ _; omega
  | succ n ih =>
    intro j m hjm hm hbusy hfree
    rcases Nat.eq_or_lt_of_le hjm with heq | hlt
    · subst heq
      simp [prepLoop, hfree]
    · have hj : ex (candStem s j ++ ext) = true := hbusy j le_rfl hlt
      have : prepLoop ex ext (n + 1) (candStem s j) (j + 1)
          = prepLoop ex ext n (candStem s j ++ "-" ++ toString (j + 1)) (j + 1 + 1) := by
        simp [prepLoop, hj]
      rw [this]
      have hcand : candStem s j ++ "-" ++ toString (j + 1) = candStem s (j + 1) := rfl
      rw [hcand]
      exact ih (j + 1) m hlt (by omega) (fun i h1 h2 => hbusy i (by omega) h2) hfree

/-! ### Lemmas: successive filters fuse to the conjunction -/

theorem foldl_filter_eq_filter_all {T : Type} (preds : List (T → Bool)) :
    ∀ items : List T,
      preds.foldl (fun acc p => acc.filter p) items
        = items.filter fun t => preds.all fun p => p t := by
  induction preds with
  | nil => intro items; simp
  | cons p ps ih =>
    intro items
    have step : (p :: ps).foldl (fun acc p => acc.filter p) items
        = ps.foldl (fun acc p => acc.filter p) (items.filter p) := rfl
    rw [step, ih, List.filter_filter]
    apply List.filter_congr
    intro t _
    simp [Bool.and_comm]

/-! ### Lemmas: the code's stable sort equals the indexed sort -/

theorem mem_sInsert {α : Type} (lt : α → α → Bool) (x a : α) (l : List α) :
    a ∈ sInsert lt x l ↔ a = x ∨ a ∈ l := by
  induction l with
  | nil => simp [sInsert]
  | cons y ys ih =>
    by_cases h : lt y x
    · simp only [sInsert, if_pos h, List.mem_cons, ih]
      tauto
    · simp only [sInsert, if_neg h, List.mem_cons]

theorem mem_sSort {α : Type} (lt : α → α → Bool) (a : α) (l : List α) :
    a ∈ sSort lt l ↔ a ∈ l := by
  induction l with
  | nil => simp [sSort]
  | cons x xs ih => simp [sSort, mem_sInsert, ih]

theorem map_snd_sInsert {T : Type} (ltK : T → T → Bool)
    (lex : Nat × T → Nat × T → Bool)
    (hlex : ∀ a b : Nat × T, b.1 < a.1 → lex a b = ltK a.2 b.2)
    (p : Nat × T) (pl : List (Nat × T)) (hdom : ∀ q ∈ pl, p.1 < q.1) :
    (sInsert lex p pl).map Prod.snd = sInsert ltK p.2 (pl.map Prod.snd) := by
  induction pl with
  | nil => simp [sInsert]
  | cons q qs ih =>
    have hq : lex q p = ltK q.2 p.2 := hlex q p (hdom q (by simp))
    by_cases h : ltK q.2 p.2
    · simp [sInsert, hq, h]
      exact ih fun r hr => hdom r (by simp [hr])
    · simp [sInsert, hq, h]

theorem map_snd_sSort {T : Type} (ltK : T → T → Bool)
    (lex : Nat × T → Nat × T → Bool)
    (hlex : ∀ a b : Nat × T, b.1 < a.1 → lex a b = ltK a.2 b.2)
    (pl : List (Nat × T)) (hpw : pl.Pairwise fun a b => a.1 < b.1) :
    (sSort lex pl).map Prod.snd = sSort ltK (pl.map Prod.snd) := by
  induction pl with
  | nil => simp [sSort]
  | cons p ps ih =>
    rcases List.pairwise_cons.mp hpw with ⟨hhead, htail⟩
    have hdom : ∀ q ∈ sSort lex ps, p.1 < q.1 := by
      intro q hq
      exact hhead q ((mem_sSort lex q ps).mp hq)
    calc (sSort lex (p :: ps)).map Prod.snd
        = (sInsert lex p (sSort lex ps)).map Prod.snd := rfl
      _ = sInsert ltK p.2 ((sSort lex ps).map Prod.snd) :=
          map_snd_sInsert ltK lex hlex p _ hdom
      _ = sInsert ltK p.2 (sSort ltK (ps.map Prod.snd)) := by rw [ih htail]
      _ = sSort ltK ((p :: ps).map Prod.snd) := rfl

theorem map_snd_enumFrom {α : Type} (n : Nat) (l : List α) :
    (List.enumFrom n l).map Prod.snd = l := by
  induction l generalizing n with
  | nil => rfl
  | cons x xs ih => simp [List.enumFrom, ih]

theorem le_fst_of_mem_enumFrom {α : Type} {p : Nat × α} :
    ∀ {n : Nat} {l : List α}, p ∈ List.enumFrom n l → n ≤ p.1 := by
  intro n l
  induction l generalizing n with
  | nil => intro h; simp [List.enumFrom] at h
  | cons x xs ih =>
    intro h
    rcases List.mem_cons.mp h with h1 | h2
    · subst h1; exact le_rfl
    · exact Nat.le_of_succ_le (ih h2)

theorem pairwise_fst_lt_enumFrom {α : Type} (n : Nat) (l : List α) :
    (List.enumFrom n l).Pairwise fun a b => a.1 < b.1 := by
  induction l generalizing n with
  | nil => exact List.Pairwise.nil
  | cons x xs ih =>
    refine List.pairwise_cons.mpr ⟨?_, ih (n + 1)⟩
    intro q hq
    exact Nat.lt_of_succ_le (le_fst_of_mem_enumFrom hq)

theorem lexLt_eq_of_fst_lt {T K : Type} [LinearOrder K] (key : T → K)
    (descending : Bool) (a b : Nat × T) (h : b.1 < a.1) :
    lexLt key descending a b
      = (if descending then decide (key b.2 < key a.2)
         else decide (key a.2 < key b.2)) := by
  have : decide (a.1 < b.1) = false := by
    simp
    omega
  by_cases hd : descending <;> simp [lexLt, hd, this]

theorem pyListSort_eq_stableSortSpec {T K : Type} [LinearOrder K] (key : T → K)
    (descending : Bool) (items : List T) :
    pyListSort key descending items = stableSortSpec key descending items := by
  unfold stableSortSpec pyListSort
  rw [List.enum,
    map_snd_sSort
      (fun a b => if descending then decide (key b < key a) else decide (key a < key b))
      (lexLt key descending)
      (fun a b h => lexLt_eq_of_fst_lt key descending a b h)
      (List.enumFrom 0 items) (pairwise_fst_lt_enumFrom 0 items),
    map_snd_enumFrom]

theorem inferLoop_ok_sound (files : List FileEntry) :
    ∀ (seen out : List HandlerKind), inferLoop seen files = .ok out →
      (∀ f ∈ files, ∃ k, kindOf f = some k ∧ k ∈ out) ∧
      (∀ a ∈ seen, a ∈ out) ∧ (seen.length ≤ 1 → out.length ≤ 1) := by
  induction files with
  | nil =>
    intro seen out h
    simp only [inferLoop] at h
    cases h
    exact ⟨by simp, fun a ha => ha, fun h1 => h1⟩
  | cons f rest ih =>
    intro seen out h
    cases hk : kindOf f with
    | none => simp only [inferLoop, hk] at h; cases h
    | some k =>
      simp only [inferLoop, hk] at h
      by_cases hlen : (if seen.contains k then seen else seen ++ [k]).length > 1
      · rw [if_pos hlen] at h; cases h
      · rw [if_neg hlen] at h
        obtain ⟨h1, h2, h3⟩ := ih _ out h
        have hkin : k ∈ (if seen.contains k then seen else seen ++ [k]) := by
          by_cases hc : seen.contains k
          · rw [if_pos hc]; simpa using hc
          · rw [if_neg hc]; simp
        have hsub : ∀ a ∈ seen, a ∈ (if seen.contains k then seen else seen ++ [k]) := by
          intro a ha
          by_cases hc : seen.contains k
          · rw [if_pos hc]; exact ha
          · rw [if_neg hc]; exact List.mem_append_left _ ha
        refine ⟨fun g hg => ?_, fun a ha => h2 a (hsub a ha), fun _ => h3 (by omega)⟩
        rcases List.mem_cons.mp hg with hg1 | hg2
        · subst hg1; exact ⟨k, hk, h2 k hkin⟩
        · exact h1 g hg2

theorem inferLoop_no_unknown (files : List FileEntry)
    (hrec : ∀ f ∈ files, (kindOf f).isSome) :
    ∀ (seen : List HandlerKind) (x : Option String),
      inferLoop seen files ≠ .error (.unknownFormat x) := by
  induction files with
  | nil => intro seen x h; simp [inferLoop] at h
  | cons f rest ih =>
    intro seen x h
    have hf : (kindOf f).isSome := hrec f (by simp)
    cases hk : kindOf f with
    | none => rw [hk] at hf; simp at hf
    | some k =>
      simp only [inferLoop, hk] at h
      by_cases hlen : (if seen.contains k then seen else seen ++ [k]).length > 1
      · rw [if_pos hlen] at h; cases h
      · rw [if_neg hlen] at h
        exact ih (fun g hg => hrec g (by simp [hg])) _ x h

/-- The scan of a directory whose recognized files all share one family
`k0` aborts with `UnknownFormatError` at the first unrecognized file. -/
theorem inferLoop_unknown_of_first (k0 : HandlerKind) (f : FileEntry) :
    ∀ files : List FileEntry,
      (∀ g ∈ files, ∀ k, kindOf g = some k → k = k0) →
      files.find? (fun g => (kindOf g).isNone) = some f →
      ∀ seen : List HandlerKind, (seen = [] ∨ seen = [k0]) →
        inferLoop seen files = .error (.unknownFormat (some f.name)) := by
  intro files
  induction files with
  | nil => intro _ hf; simp at hf
  | cons g rest ih =>
    intro hone hf seen hseen
    cases hk : kindOf g with
    | none =>
      have hgf : g = f := by
        rw [List.find?_cons_of_pos _ (by simp [hk])] at hf
        exact Option.some_injective _ hf
      subst hgf
      simp [inferLoop, hk]
    | some k =>
      have hkk0 : k = k0 := hone g (by simp) k hk
      have hfrest : rest.find? (fun g => (kindOf g).isNone) = some f := by
        rw [List.find?_cons_of_neg _ (by simp [hk])] at hf
        exact hf
      have hseen1 : (if seen.contains k then seen else seen ++ [k]) = [k0] := by
        rcases hseen with h | h <;> subst h
        · simp [hkk0]
        · rw [hkk0]
          simp
      simp only [inferLoop, hk, hseen1]
      rw [if_neg (by simp)]
      exact ih (fun g1 hg1 k1 hk1 => hone g1 (by simp [hg1]) k1 hk1) hfrest [k0]
        (Or.inr rfl)

/-! ## Helper lemmas for the query-object heap -/

theorem set_append_length {α : Type} (l : List α) (a b : α) :
    (l ++ [a]).set l.length b = l ++ [b] := by
  induction l with
  | nil => rfl
  | cons x xs ih => simp [ih]

theorem qGet_concat {T : Type} (store : QStore T) (d : QueryData T) :
    qGet (store ++ [d]) store.length = some d := by
  unfold qGet
  induction store with
  | nil => rfl
  | cons x xs ih => simp [ih]

theorem qGet_append_left {T : Type} (store : QStore T) (d : QueryData T) (q : Nat)
    (hq : q < store.length) : qGet (store ++ [d]) q = qGet store q := by
  unfold qGet
  induction store generalizing q with
  | nil => simp at hq
  | cons x xs ih =>
    cases q with
    | zero => simp
    | succ m => simpa using ih m (by simpa using hq)

/-! ## Claim theorems -/

/-- C1 (code bug): the claim — and the repository's own test
`test_add_prevents_duplicates` — says repeated `add` of the same record
object returns the same path and creates no additional file.  The code
violates this: `_prepare_path` never consults the identity tracker, so
the second `add` of the already-tracked object derives the filename
afresh, finds `test-post.yaml` occupied, and writes a *second* file
`test-post-1.yaml`, returning a different path.  This theorem evaluates
the embedded code at the failing input: a record titled "Test Post" added
twice to an initially empty yaml collection. -/
theorem add_same_object_twice_creates_second_file :
    collAdd (storeEnv ".yaml") "u0" stStart 0 none 10
      = .ok ("test-post.yaml", stAfterAdd) ∧
    collAdd (storeEnv ".yaml") "u0" stAfterAdd 0 none 10
      = .ok ("test-post-1.yaml", stAfterSecondAdd) ∧
    ("test-post-1.yaml" : String) ≠ "test-post.yaml" ∧
    stAfterSecondAdd.fs.length = 2 ∧
    hasKey stAfterSecondAdd.fs "test-post.yaml" = true ∧
    hasKey stAfterSecondAdd.fs "test-post-1.yaml" = true :=
  ⟨rfl, rfl, by decide, rfl, rfl, rfl⟩

/-- C2 (counterexample): the mutual cache/tracker consistency invariant is
not preserved by every operation.  Starting from an empty collection, one
`add` leaves a consistent state, but `refresh` then loads a fresh record
object `1` and re-points the cache entry of `test-post.yaml` at it, while
the still-reachable old record `0` remains tracked at that path — a
tracker entry whose reachable record has no matching cache entry. -/
theorem refresh_breaks_cache_tracker_consistency :
    collAdd (storeEnv ".yaml") "u0" stStart 0 none 10
      = .ok ("test-post.yaml", stAfterAdd) ∧
    consistentB stAfterAdd = true ∧
    collRefresh (storeEnv ".yaml") stAfterAdd 0 = .ok (1, stAfterRefresh) ∧
    reachableB stAfterRefresh 0 = true ∧
    consistentB stAfterRefresh = false :=
  ⟨rfl, rfl, rfl, rfl, rfl⟩

/-- C2 (amended): the operations that write or load a record do
re-establish consistency locally at the affected path — after a
successful `add`, `update`, or forced load, the cache maps the returned
path to the record and the tracker maps the record to that path — but the
global two-way invariant is not preserved by `refresh` (stale tracker
entry) or `delete` by path (tracker untouched). -/
theorem add_update_forced_load_establish_local_consistency
    {F : Type} (E : CollEnv F) :
    (∀ (uuid : String) (st : CollState F) (r : Nat) (expl : Option String)
        (fuel : Nat) (p : String) (st1 : CollState F),
        collAdd E uuid st r expl fuel = .ok (p, st1) →
        getAssoc st1.cache p = some r ∧ getAssoc st1.refs r = some p) ∧
    (∀ (st : CollState F) (r : Nat) (p : String) (st1 : CollState F),
        collUpdate E st r = .ok (p, st1) →
        getAssoc st1.cache p = some r ∧ getAssoc st1.refs r = some p) ∧
    (∀ (st : CollState F) (path : String) (i : Nat) (st1 : CollState F),
        collLoadModel E st path true = .ok (i, st1) →
        getAssoc st1.cache path = some i ∧ getAssoc st1.refs i = some path) := by
  refine ⟨?_, ?_, ?_⟩
  · intro uuid st r expl fuel p st1 h
    simp only [collAdd] at h
    split at h
    · cases h
    · cases h
      exact ⟨getAssoc_setAssoc_self _ _ _, getAssoc_setAssoc_self _ _ _⟩
  · intro st r p st1 h
    simp only [collUpdate] at h
    split at h
    · cases h
    · rename_i path hpath
      split at h
      · cases h
      · cases h
        exact ⟨getAssoc_setAssoc_self _ _ _, hpath⟩
  · intro st path i st1 h
    simp only [collLoadModel, Bool.not_true, Bool.false_and, Bool.false_eq_true,
      if_false] at h
    split at h
    · cases h
    · cases h
      exact ⟨getAssoc_setAssoc_self _ _ _, getAssoc_setAssoc_self _ _ _⟩

/-- Witness for the amended C2 theorem: the first `add` of the concrete
run satisfies the local-consistency postcondition. -/
theorem add_update_forced_load_establish_local_consistency_witness :
    getAssoc stAfterAdd.cache "test-post.yaml" = some 0 ∧
    getAssoc stAfterAdd.refs 0 = some "test-post.yaml" :=
  (add_update_forced_load_establish_local_consistency (storeEnv ".yaml")).1
    "u0" stStart 0 none 10 "test-post.yaml" stAfterAdd rfl

/-- C3 (confirmed): materializing a pipeline equals loading all records,
keeping exactly those satisfying every predicate (conjunction), then — if
a sort instruction is present — stable-sorting by the named field's value
(ascending unless descending was requested, equal keys keeping their
pre-sort relative order, expressed by sorting the position-indexed list
by the pair (key, position)), then applying the post-sort transforms in
registration order. -/
theorem to_list_materializes_filter_sort_trim {T K : Type} [LinearOrder K]
    (attr : T → String → K) (allItems : List T) (q : QueryData T) :
    toListQ attr allItems q = specMaterialize attr allItems q := by
  unfold toListQ specMaterialize
  rw [foldl_filter_eq_filter_all]
  cases hs : q.sort with
  | none => rfl
  | some s => simp only [pyListSort_eq_stableSortSpec]

/-- C4 (counterexample): a failed JSON write does *not* leave the
filesystem as it was.  `JsonHandler.write` opens the destination with
mode `"wb"` (truncating it) before `orjson.dumps(data)` is evaluated, so
when serialization raises, a file that previously held `"old-content"`
is left empty. -/
theorem json_write_failure_truncates_file :
    jsonWriteFs (fun _ => .error ()) [("post.json", "old-content")] "post.json"
        testPostPayload
      = .error [("post.json", "")] ∧
    getAssoc ([("post.json", "")] : ByteFs) "post.json" ≠ some "old-content" :=
  ⟨rfl, by decide⟩

/-- C4 (amended): a failed write never touches the in-memory state (the
cache, tracker, record heap and live set are exactly as before the call),
and for the Markdown handler the filesystem is also untouched because the
full payload is serialized in memory before any byte is written; but the
JSON handler truncates the destination before serializing (a failure
leaves the file empty), and the YAML handler streams into the open file
(a failure leaves the truncated file holding whatever prefix was
written). -/
theorem write_failure_effects :
    (∀ (ser : Payload → Except Unit String) (bf : Option String)
        (fs fs1 : ByteFs) (path : String) (data : Payload),
        markdownWriteFs ser bf fs path data = .error fs1 → fs1 = fs) ∧
    (∀ (ser : Payload → Except Unit String) (fs fs1 : ByteFs) (path : String)
        (data : Payload),
        jsonWriteFs ser fs path data = .error fs1 → fs1 = setAssoc fs path "") ∧
    (∀ (ser : Payload → Except String String) (fs fs1 : ByteFs) (path : String)
        (data : Payload) (pre : String),
        ser data = .error pre → yamlWriteFs ser fs path data = .error fs1 →
        fs1 = setAssoc (setAssoc fs path "") path pre) ∧
    (∀ (F : Type) (E : CollEnv F) (uuid : String) (st : CollState F) (r : Nat)
        (expl : Option String) (fuel : Nat) (e : CollErr) (st1 : CollState F),
        collAdd E uuid st r expl fuel = .error (e, st1) →
        st1.cache = st.cache ∧ st1.refs = st.refs ∧
          st1.records = st.records ∧ st1.live = st.live) ∧
    (∀ (F : Type) (E : CollEnv F) (st : CollState F) (r : Nat) (e : CollErr)
        (st1 : CollState F),
        collUpdate E st r = .error (e, st1) →
        st1.cache = st.cache ∧ st1.refs = st.refs ∧
          st1.records = st.records ∧ st1.live = st.live) := by
  refine ⟨?_, ?_, ?_, ?_, ?_⟩
  · intro ser bf fs fs1 path data h
    simp only [markdownWriteFs] at h
    split at h
    · cases h; rfl
    · cases h
  · intro ser fs fs1 path data h
    simp only [jsonWriteFs] at h
    split at h
    · cases h; rfl
    · cases h
  · intro ser fs fs1 path data pre hser h
    simp only [yamlWriteFs, hser] at h
    cases h; rfl
  · intro F E uuid st r expl fuel e st1 h
    simp only [collAdd] at h
    split at h
    · cases h
      exact ⟨rfl, rfl, rfl, rfl⟩
    · cases h
  · intro F E st r e st1 h
    simp only [collUpdate] at h
    split at h
    · cases h
      exact ⟨rfl, rfl, rfl, rfl⟩
    · split at h
      · cases h
        exact ⟨rfl, rfl, rfl, rfl⟩
      · cases h

/-- Witness for the amended C4 theorem: each conjunct applied at a
concrete failing write. -/
theorem write_failure_effects_witness :
    ([("a.md", "x")] : ByteFs) = [("a.md", "x")] ∧
    ([("post.json", "")] : ByteFs) = setAssoc [("post.json", "old-content")] "post.json" "" ∧
    ([("b.yaml", "par")] : ByteFs)
      = setAssoc (setAssoc [("b.yaml", "old")] "b.yaml" "") "b.yaml" "par" ∧
    (stStart.cache = stStart.cache ∧ stStart.refs = stStart.refs ∧
      stStart.records = stStart.records ∧ stStart.live = stStart.live) := by
  refine ⟨?_, ?_, ?_, ?_⟩
  · exact write_failure_effects.1 (fun _ => .error ()) none [("a.md", "x")]
      [("a.md", "x")] "a.md" [] rfl
  · exact write_failure_effects.2.1 (fun _ => .error ())
      [("post.json", "old-content")] [("post.json", "")] "post.json" testPostPayload rfl
  · exact write_failure_effects.2.2.1 (fun _ => .error "par") [("b.yaml", "old")]
      [("b.yaml", "par")] "b.yaml" testPostPayload "par" rfl rfl
  · exact write_failure_effects.2.2.2.1 ByteFs failEnv "u0"
      { fs := [], cache := stStart.cache, refs := stStart.refs,
        records := stStart.records, live := stStart.live, nextId := 1 }
      0 none 1 .writeError
      { fs := [], cache := stStart.cache, refs := stStart.refs,
        records := stStart.records, live := stStart.live, nextId := 1 } rfl

/-- C5 (counterexample): two deviations from the claim at concrete
inputs.  (1) Disambiguation suffixes accumulate: with `test-post.md` and
`test-post-1.md` already on disk, the loop rebuilds the stem from the
*current* candidate (`candidate.with_stem(f"{candidate.stem}-{counter}")`)
and yields `test-post-1-2.md`, not the claim's `test-post-2.md`.
(2) Field selection skips whitespace-only strings (`value.strip()`): with
`slug = " "` (a non-empty string) and `name = "Hello"`, the stem comes
from `name`, not from the normalization of `slug` (which would be the
fallback `"item"`). -/
theorem derive_path_counterexample :
    preparePath (fun p => p == "test-post.md" || p == "test-post-1.md") ".md" "u0"
        [("title", .vstr "Test Post")] 3
      = "test-post-1-2.md" ∧
    ("test-post-1-2.md" : String) ≠ "test-post-2.md" ∧
    deriveStem "u0" [("slug", .vstr " "), ("name", .vstr "Hello")] = "hello" ∧
    slugify " " = "item" ∧ ("hello" : String) ≠ "item" :=
  ⟨rfl, by decide, rfl, rfl, by decide⟩

/-- C5 (amended): for a record added without an explicit path the stem is
derived from the first of `slug`, `id`, `name`, `title` holding a string
with at least one non-whitespace character (normalized by `slugify`,
falling back to the random token when none qualifies), the handler
extension is appended, and the collision loop returns the *first free*
candidate of the accumulating sequence `s`, `s-1`, `s-1-2`, `s-1-2-3`,
... -/
theorem prepare_path_first_free_accumulated_candidate
    (ex : String → Bool) (ext uuid : String) (data : Payload) (fuel m : Nat)
    (hm : m < fuel)
    (hbusy : ∀ i, i < m → ex (candStem (deriveStem uuid data) i ++ ext) = true)
    (hfree : ex (candStem (deriveStem uuid data) m ++ ext) = false) :
    preparePath ex ext uuid data fuel = candStem (deriveStem uuid data) m ++ ext := by
  unfold preparePath
  have h := prepLoop_first_free ex ext (deriveStem uuid data) fuel 0 m (Nat.zero_le m)
    (by omega) (fun i h1 h2 => hbusy i h2) hfree
  simpa using h

/-- Witness for the amended C5 theorem: the concrete collision run whose
first free candidate is `test-post-1-2.md`. -/
theorem prepare_path_first_free_accumulated_candidate_witness :
    preparePath (fun p => p == "test-post.md" || p == "test-post-1.md") ".md" "u0"
        [("title", .vstr "Test Post")] 3
      = candStem (deriveStem "u0" [("title", .vstr "Test Post")]) 2 ++ ".md" :=
  prepare_path_first_free_accumulated_candidate
    (fun p => p == "test-post.md" || p == "test-post-1.md") ".md" "u0"
    [("title", .vstr "Test Post")] 3 2 (by decide) (by decide) (by decide)

/-- C6 (confirmed): each builder call (`filter`, `order_by`, `head`,
`tail`, the latter two for the validated `n ≥ 0`) allocates a fresh
pipeline object (its reference `store.length` differs from the receiver
`q`), stores the receiver's data extended by exactly the new step, and
leaves the receiver's own data unchanged — the final conjunct shows a
lookup of `q` in the extended heap returns the same data as before, so
several queries can be forked from one base pipeline. -/
theorem builder_calls_return_fresh_and_leave_receiver_unchanged {T : Type}
    (store : QStore T) (q : Nat) (hq : q < store.length) (p : T → Bool)
    (field : String) (n : Int) (hn : 0 ≤ n) :
    qFilter store q p
      = (store ++ [{ (qGet store q).getD emptyQuery with
            predicates := ((qGet store q).getD emptyQuery).predicates ++ [p] }],
         store.length) ∧
    qOrderBy store q field
      = (store ++ [{ (qGet store q).getD emptyQuery with
            sort := some { field := if pyStartsWith field "-" then pyDrop field 1 else field,
                           descending := pyStartsWith field "-" } }],
         store.length) ∧
    qHead store q n
      = .ok (store ++ [{ (qGet store q).getD emptyQuery with
            postOps := ((qGet store q).getD emptyQuery).postOps ++ [.headOp n.toNat] }],
         store.length) ∧
    qTail store q n
      = .ok (store ++ [{ (qGet store q).getD emptyQuery with
            postOps := ((qGet store q).getD emptyQuery).postOps ++ [.tailOp n.toNat] }],
         store.length) ∧
    store.length ≠ q ∧
    (∀ d : QueryData T, qGet (store ++ [d]) q = qGet store q) := by
  refine ⟨?_, ?_, ?_, ?_, by omega, fun d => qGet_append_left store d q hq⟩
  · simp only [qFilter, qClone, qAlloc, qSet, qGet_concat, Option.getD_some,
      set_append_length]
  · simp only [qOrderBy, qClone, qAlloc, qSet, qGet_concat, Option.getD_some,
      set_append_length]
  · simp only [qHead, qClone, qAlloc, qSet, qGet_concat, Option.getD_some,
      set_append_length]
    rw [if_neg (by omega)]
  · simp only [qTail, qClone, qAlloc, qSet, qGet_concat, Option.getD_some,
      set_append_length]
    rw [if_neg (by omega)]

/-- Witness for the C6 theorem: forking a filter off a one-object heap
allocates reference 1 and leaves the data of reference 0 untouched. -/
theorem builder_calls_return_fresh_witness :
    qFilter ([emptyQuery] : QStore Nat) 0 (fun _ => true)
      = ([emptyQuery,
          { (emptyQuery : QueryData Nat) with predicates := [fun _ => true] }], 1) ∧
    qGet ([emptyQuery,
          { (emptyQuery : QueryData Nat) with predicates := [fun _ => true] }] : QStore Nat) 0
      = qGet ([emptyQuery] : QStore Nat) 0 := by
  have h := builder_calls_return_fresh_and_leave_receiver_unchanged
    ([emptyQuery] : QStore Nat) 0 (by decide) (fun _ => true) "-date" 2 (by decide)
  exact ⟨h.1, h.2.2.2.2.2 _⟩

/-- C7 (confirmed): on any materialized sequence, `head(0)` and `tail(0)`
both yield the empty sequence (`tail` special-cases `n == 0` because
`items[-0:]` would be the whole list); `head(n)` and `tail(n)` with `n`
at least the sequence length yield the whole sequence; and calling
`head` or `tail` with negative `n` fails with the `ValueError` of the
builder before any pipeline object is created. -/
theorem head_tail_boundary {T : Type} :
    (∀ s : List T, evalPostOp (.headOp 0) s = [] ∧ evalPostOp (.tailOp 0) s = []) ∧
    (∀ (s : List T) (n : Nat), s.length ≤ n →
      evalPostOp (.headOp n) s = s ∧ evalPostOp (.tailOp n) s = s) ∧
    (∀ (store : QStore T) (q : Nat) (n : Int), n < 0 →
      qHead store q n = .error "head expects a non-negative integer" ∧
      qTail store q n = .error "tail expects a non-negative integer") := by
  refine ⟨fun s => ⟨by simp [evalPostOp], by simp [evalPostOp]⟩,
    fun s n h => ⟨?_, ?_⟩,
    fun store q n h => ⟨by simp [qHead, h], by simp [qTail, h]⟩⟩
  · simpa [evalPostOp] using List.take_of_length_le h
  · simp only [evalPostOp]
    rcases Nat.eq_zero_or_pos n with h0 | h0
    · have hs : s = [] := List.eq_nil_of_length_eq_zero (by omega)
      subst hs
      subst h0
      rfl
    · rw [if_neg (by omega)]
      have hd : s.length - n = 0 := by omega
      simp [hd]

/-- Witness for the C7 theorem: concrete boundary instances. -/
theorem head_tail_boundary_witness :
    evalPostOp (.headOp 0) ([3, 7] : List Nat) = [] ∧
    evalPostOp (.headOp 5) ([3, 7] : List Nat) = [3, 7] ∧
    evalPostOp (.tailOp 5) ([3, 7] : List Nat) = [3, 7] ∧
    qHead ([] : QStore Nat) 0 (-1) = .error "head expects a non-negative integer" := by
  refine ⟨(head_tail_boundary.1 [3, 7]).1, ?_, ?_, ?_⟩
  · exact ((head_tail_boundary (T := Nat)).2.1 [3, 7] 5 (by decide)).1
  · exact ((head_tail_boundary (T := Nat)).2.1 [3, 7] 5 (by decide)).2
  · exact ((head_tail_boundary (T := Nat)).2.2 [] 0 (-1) (by decide)).1

/-- C8 (counterexample): handler read does *not* fail on every
non-mapping.  `JsonHandler.read` returns whatever `json.load` produced —
valid JSON `[1, 2]` is returned as a list, not rejected — and
`YamlHandler.read` coerces falsy parse results (here the empty list) to
an empty mapping via `yaml.safe_load(fh) or {}` and succeeds. -/
theorem handler_read_non_mapping_counterexample :
    jsonRead (fun _ => .ok (.vlist [.vint 1, .vint 2])) "[1, 2]"
      = .ok (.vlist [.vint 1, .vint 2]) ∧
    jsonRead (fun _ => .ok (.vlist [.vint 1, .vint 2])) "[1, 2]" ≠ .error .parseError ∧
    jsonRead (fun _ => .ok (.vlist [.vint 1, .vint 2])) "[1, 2]" ≠ .error .valueError ∧
    yamlRead (fun _ => .ok (.vlist [])) "[]" = .ok [] := by
  refine ⟨rfl, ?_, ?_, rfl⟩
  · intro h
    cases h
  · intro h
    cases h

/-- C8 (amended): the YAML variant fails with the mapping `ValueError`
exactly when the content parses to a *truthy* non-mapping (falsy results
— null, `0`, empty string/list — are coerced to the empty mapping and
succeed); the Markdown variant behaves the same way on its frontmatter
block; the JSON variant performs no mapping check at all and returns
whatever JSON parses to, so only genuine parse failures propagate. -/
theorem handler_read_mapping_check_behavior :
    (∀ (parse : String → Except Unit PyVal) (content : String) (v : PyVal),
        parse content = .ok v → pyTruthy v = true → (∀ d, v ≠ .vdict d) →
        yamlRead parse content = .error .valueError) ∧
    (∀ (parse : String → Except Unit PyVal) (content : String) (v : PyVal),
        parse content = .ok v → pyTruthy v = false →
        yamlRead parse content = .ok []) ∧
    (∀ (parse : String → Except Unit PyVal) (content : String) (v : PyVal),
        parse content = .ok v → jsonRead parse content = .ok v) ∧
    (∀ (parse : String → Except Unit PyVal) (bf : Option String)
        (text pre parts fmRaw rest : String) (v : PyVal),
        pyStartsWith text "---" = true →
        splitOnce text "\n" = some (pre, parts) →
        splitOnce parts "\n---" = some (fmRaw, rest) →
        parse fmRaw = .ok v → pyTruthy v = true → (∀ d, v ≠ .vdict d) →
        markdownRead parse bf text = .error .valueError) := by
  refine ⟨?_, ?_, ?_, ?_⟩
  · intro parse content v hp htr hnd
    cases v with
    | vdict d => exact absurd rfl (hnd d)
    | vnone => simp [pyTruthy] at htr
    | vbool b => simp [yamlRead, hp, htr]
    | vint n => simp [yamlRead, hp, htr]
    | vstr s => simp [yamlRead, hp, htr]
    | vlist l => simp [yamlRead, hp, htr]
  · intro parse content v hp htr
    simp [yamlRead, hp, htr]
  · intro parse content v hp
    simp [jsonRead, hp]
  · intro parse bf text pre parts fmRaw rest v hstart h1 h2 hp htr hnd
    have hsf : splitFrontmatter parse text = .error .valueError := by
      cases v with
      | vdict d => exact absurd rfl (hnd d)
      | vnone => simp [pyTruthy] at htr
      | vbool b => simp [splitFrontmatter, hstart, h1, h2, hp, htr]
      | vint n => simp [splitFrontmatter, hstart, h1, h2, hp, htr]
      | vstr s => simp [splitFrontmatter, hstart, h1, h2, hp, htr]
      | vlist l => simp [splitFrontmatter, hstart, h1, h2, hp, htr]
    simp [markdownRead, hsf]

/-- Witness for the amended C8 theorem: concrete non-mapping reads for
each variant. -/
theorem handler_read_mapping_check_behavior_witness :
    yamlRead (fun _ => .ok (.vint 5)) "5" = .error .valueError ∧
    yamlRead (fun _ => .ok .vnone) "" = .ok [] ∧
    jsonRead (fun _ => .ok (.vint 5)) "5" = .ok (.vint 5) ∧
    markdownRead (fun s => .ok (.vstr s)) none "---\ntitle\n---\nbody"
      = .error .valueError := by
  refine ⟨?_, ?_, ?_, ?_⟩
  · exact handler_read_mapping_check_behavior.1 (fun _ => .ok (.vint 5)) "5"
      (.vint 5) rfl rfl (fun d h => by cases h)
  · exact handler_read_mapping_check_behavior.2.1 (fun _ => .ok .vnone) ""
      .vnone rfl rfl
  · exact handler_read_mapping_check_behavior.2.2.1 (fun _ => .ok (.vint 5)) "5"
      (.vint 5) rfl
  · exact handler_read_mapping_check_behavior.2.2.2 (fun s => .ok (.vstr s)) none
      "---\ntitle\n---\nbody" "---" "title\n---\nbody" "title" "\nbody"
      (.vstr "title") rfl rfl rfl rfl rfl (fun d h => by cases h)

/-- C9 (confirmed): handler inference without a declared format.
(1) An empty directory fails with `UnknownFormatError` (no offending
file).  (2) A directory whose files all have recognized extensions but
span more than one handler family fails with `InconsistentFormatError`.
(3) If the recognized files are all of one family and some file's
extension matches no registered handler, the scan fails with
`UnknownFormatError` naming the first such file. -/
theorem infer_handler_error_taxonomy :
    inferHandler true [] = .error (.unknownFormat none) ∧
    (∀ (files : List FileEntry) (f1 f2 : FileEntry) (k1 k2 : HandlerKind),
        (∀ f ∈ files, (kindOf f).isSome) →
        f1 ∈ files → f2 ∈ files → kindOf f1 = some k1 → kindOf f2 = some k2 →
        k1 ≠ k2 → inferHandler true files = .error .inconsistentFormat) ∧
    (∀ (files : List FileEntry) (f : FileEntry) (k0 : HandlerKind),
        (∀ g ∈ files, ∀ k, kindOf g = some k → k = k0) →
        files.find? (fun g => (kindOf g).isNone) = some f →
        inferHandler true files = .error (.unknownFormat (some f.name))) := by
  refine ⟨rfl, ?_, ?_⟩
  · intro files f1 f2 k1 k2 hrec h1 h2 hk1 hk2 hne
    unfold inferHandler
    cases hloop : inferLoop [] files with
    | ok out =>
      obtain ⟨hall, _, hlen⟩ := inferLoop_ok_sound files [] out hloop
      obtain ⟨k1a, hk1a, hin1⟩ := hall f1 h1
      obtain ⟨k2a, hk2a, hin2⟩ := hall f2 h2
      rw [hk1] at hk1a
      rw [hk2] at hk2a
      cases hk1a
      cases hk2a
      have hout : out.length ≤ 1 := hlen (by simp)
      exfalso
      cases out with
      | nil => simp at hin1
      | cons a rest =>
        cases rest with
        | nil =>
          simp at hin1 hin2
          exact hne (hin1.trans hin2.symm)
        | cons b rest2 => simp at hout
    | error e =>
      cases e with
      | unknownFormat x => exact absurd hloop (inferLoop_no_unknown files hrec [] x)
      | inconsistentFormat => rfl
  · intro files f k0 hone hf
    unfold inferHandler
    rw [inferLoop_unknown_of_first k0 f files hone hf [] (Or.inl rfl)]

/-- Witness for the C9 theorem: a mixed `.md`/`.json` directory is
inconsistent, and a one-family directory with a stray `.txt` file fails
naming that file. -/
theorem infer_handler_error_taxonomy_witness :
    inferHandler true [⟨"a.md", ".md"⟩, ⟨"b.json", ".json"⟩]
      = .error .inconsistentFormat ∧
    inferHandler true [⟨"a.md", ".md"⟩, ⟨"x.txt", ".txt"⟩]
      = .error (.unknownFormat (some "x.txt")) := by
  constructor
  · exact infer_handler_error_taxonomy.2.1 [⟨"a.md", ".md"⟩, ⟨"b.json", ".json"⟩]
      ⟨"a.md", ".md"⟩ ⟨"b.json", ".json"⟩ .markdown .json
      (by intro f hf; rcases List.mem_cons.mp hf with h | h
          · subst h; exact rfl
          · rcases List.mem_cons.mp h with h2 | h2
            · subst h2; exact rfl
            · exact absurd h2 (List.not_mem_nil _))
      (by simp) (by simp) rfl rfl (by decide)
  · exact infer_handler_error_taxonomy.2.2 [⟨"a.md", ".md"⟩, ⟨"x.txt", ".txt"⟩]
      ⟨"x.txt", ".txt"⟩ .markdown
      (by intro g hg k hk
          rcases List.mem_cons.mp hg with h | h
          · subst h; cases hk; rfl
          · rcases List.mem_cons.mp h with h2 | h2
            · subst h2; cases hk
            · exact absurd h2 (List.not_mem_nil _))
      rfl

/-- C10 (counterexample): a Markdown text that begins with `---` but has
no closing delimiter line does not always fall back to the all-body
treatment.  The text `"---"` (no newline at all) crashes with the
`IndexError` of `text.split("\n", 1)[1]`, and `"---\na\n---b"` (whose
only candidate delimiter line `---b` is not a bare `---`) is split at the
substring `"\n---"` and then fails the frontmatter mapping check. -/
theorem unclosed_frontmatter_counterexample :
    splitFrontmatter (fun s => .ok (.vstr s)) "---" = .error .indexError ∧
    markdownRead (fun s => .ok (.vstr s)) none "---\na\n---b"
      = .error .valueError :=
  ⟨rfl, rfl⟩

/-- C10 (amended): for every Markdown text that begins with `---`,
contains at least one newline, and whose remainder after the first line
contains no occurrence of the substring `"\n---"`, read succeeds with no
structured fields and the body field holding the entire original text.
(A text beginning with `---` but containing no newline raises an
`IndexError`; the closing-delimiter test is a substring search for
`"\n---"`, not a full-line match.) -/
theorem unclosed_frontmatter_reads_all_body
    (parse : String → Except Unit PyVal) (bf : Option String)
    (text pre parts : String)
    (hstart : pyStartsWith text "---" = true)
    (h1 : splitOnce text "\n" = some (pre, parts))
    (h2 : splitOnce parts "\n---" = none) :
    markdownRead parse bf text = .ok [(bf.getD "content", .vstr text)] := by
  have hsf : splitFrontmatter parse text = .ok ([], text) := by
    simp [splitFrontmatter, hstart, h1, h2]
  simp [markdownRead, hsf, setAssoc]

/-- Witness for the amended C10 theorem: the unclosed-frontmatter file
`"---\nhello"` reads as all body. -/
theorem unclosed_frontmatter_reads_all_body_witness :
    markdownRead (fun s => .ok (.vstr s)) none "---\nhello"
      = .ok [("content", .vstr "---\nhello")] :=
  unclosed_frontmatter_reads_all_body (fun s => .ok (.vstr s)) none
    "---\nhello" "---" "hello" rfl rfl rfl

end Diskdantic
